import Mathlib

/-!
Verification of the correlation-scoring computation of the surya-kiran
repository (the `correlationData` memo of
`src/components/ui/CorrelationAnalysis.tsx`, called `computeCorrelations`
in the specification).

The embedding is shallow: JavaScript numbers are modelled as rationals
(`ℚ`), the two JavaScript host primitives that the component calls —
`new Date(s).getTime()` and `parseFloat(s)` — are modelled as function
parameters `getTime parseFloat : String → ℚ`, and the string
manipulation `s.split('h')[0]` that the component performs itself is
modelled concretely.  The component's two pieces of UI state,
`timeWindow` (after `parseInt`) and `minConfidence` (after
`parseFloat`), are passed as rational parameters
`timeWindowHours`/`confidenceThreshold`.
-/

namespace SuryaKiran

/-- The `coordinates` field of the component's `EventData` interface:
right ascension and declination, both kept as strings by the source. -/
structure Coordinates where
  ra : String
  dec : String
deriving DecidableEq

/-- The `EventData` interface of `CorrelationAnalysis.tsx` (lines 8-15). -/
structure EventData where
  id : String
  timestamp : String
  type : String
  confidence : ℚ
  coordinates : Coordinates
  significance : String
deriving DecidableEq

/-- The `likelihood` union type `'high' | 'medium' | 'low'`. -/
inductive Likelihood where
  | high
  | medium
  | low
deriving DecidableEq

/-- The `CorrelationResult` interface of `CorrelationAnalysis.tsx`
(lines 21-27). -/
structure CorrelationResult where
  eventPair : EventData × EventData
  timeDiff : ℚ
  spatialDistance : ℚ
  correlationScore : ℚ
  likelihood : Likelihood
deriving DecidableEq

/-- JS `s.split('h')[0]`: the prefix of `s` before the first occurrence
of the character h, or all of `s` when there is none. -/
def splitH (s : String) : String :=
  String.mk (s.toList.takeWhile (fun c => decide (c ≠ 'h')))

/-- The likelihood assignment of lines 69-72: `'high'` above 0.7,
`'medium'` above 0.5, `'low'` otherwise. -/
def likelihoodOf (correlationScore : ℚ) : Likelihood :=
  if correlationScore > 0.7 then .high
  else if correlationScore > 0.5 then .medium
  else .low

/-- The body of the inner pairing loop of `correlationData` (lines
47-80), for one pair `(event1, event2)`: skip same-type pairs, skip
pairs outside the time window, otherwise score the pair and build a
`CorrelationResult`.  `getTime` models `new Date(s).getTime()` (in
milliseconds) and `parseFloat` models JS `parseFloat`. -/
def mkCandidate (getTime parseFloat : String → ℚ) (timeWindowHours : ℚ)
    (event1 event2 : EventData) : Option CorrelationResult :=
  if event1.type = event2.type then none
  else
    let time1 := getTime event1.timestamp
    let time2 := getTime event2.timestamp
    let timeDiff := |time1 - time2| / (1000 * 60 * 60)
    if timeDiff > timeWindowHours then none
    else
      let ra1 := parseFloat (splitH event1.coordinates.ra)
      let ra2 := parseFloat (splitH event2.coordinates.ra)
      let spatialDistance := |ra1 - ra2|
      let timeScore := max 0 (1 - timeDiff / timeWindowHours)
      let spatialScore := max 0 (1 - spatialDistance / 24)
      let confidenceScore := (event1.confidence + event2.confidence) / 2
      let correlationScore :=
        timeScore * 0.4 + spatialScore * 0.3 + confidenceScore * 0.3
      let likelihood : Likelihood := likelihoodOf correlationScore
      some ⟨(event1, event2), timeDiff, spatialDistance, correlationScore,
        likelihood⟩

/-- The filter on line 39: `events.filter(e => e.confidence >= confidenceThreshold)`. -/
def filteredEvents (confidenceThreshold : ℚ) (events : List EventData) :
    List EventData :=
  events.filter (fun e => decide (e.confidence ≥ confidenceThreshold))

/-- The pairs `(filteredEvents[i], filteredEvents[j])`, `i < j`, in the
order the nested loop on lines 42-43 enumerates them (lower `i` first,
then lower `j`). -/
def allPairs : List EventData → List (EventData × EventData)
  | [] => []
  | e :: rest => rest.map (fun f => (e, f)) ++ allPairs rest

/-- The `correlations` array as built by the loop, in generation order. -/
def candidates (getTime parseFloat : String → ℚ)
    (timeWindowHours confidenceThreshold : ℚ) (events : List EventData) :
    List CorrelationResult :=
  (allPairs (filteredEvents confidenceThreshold events)).filterMap
    (fun p => mkCandidate getTime parseFloat timeWindowHours p.1 p.2)

/-- Stable insertion step for the descending sort: `c` is placed before
the first element whose score is not strictly greater than `c`'s. -/
def insertDesc (c : CorrelationResult) :
    List CorrelationResult → List CorrelationResult
  | [] => [c]
  | d :: ds =>
    if d.correlationScore > c.correlationScore then d :: insertDesc c ds
    else c :: d :: ds

/-- The sort on line 85, `correlations.sort((a, b) => b.correlationScore -
a.correlationScore)`: JS `Array.prototype.sort` is stable (ES2019), so it
is modelled as a stable insertion sort into descending score order. -/
def sortDesc : List CorrelationResult → List CorrelationResult
  | [] => []
  | c :: cs => insertDesc c (sortDesc cs)

/-- The `correlationData` memo of `CorrelationAnalysis.tsx` (lines
33-88), the specification's `computeCorrelations`: filter by confidence,
enumerate cross-type pairs inside the time window, score them, sort by
score descending (stably) and keep the top 10. -/
def correlationData (getTime parseFloat : String → ℚ)
    (timeWindowHours confidenceThreshold : ℚ) (events : List EventData) :
    List CorrelationResult :=
  (sortDesc
    (candidates getTime parseFloat timeWindowHours confidenceThreshold
      events)).take 10

/-- Concrete timestamp parser for the worked examples: two instants one
hour (3600000 ms) apart. -/
def getTime₀ (s : String) : ℚ :=
  if s = "2024-01-01T00:00:00Z" then 0
  else if s = "2024-01-01T01:00:00Z" then 3600000
  else 0

/-- Concrete `parseFloat` for the worked examples. -/
def parseFloat₀ (s : String) : ℚ :=
  if s = "10" then 10
  else if s = "11" then 11
  else 0

/-- First event of the spec's example scenario 1. -/
def evGW : EventData :=
  ⟨"GW-1", "2024-01-01T00:00:00Z", "gravitational_wave", 0.9,
    ⟨"10h00m", "+20"⟩, "high"⟩

/-- Second event of the spec's example scenario 1. -/
def evGRB : EventData :=
  ⟨"GRB-1", "2024-01-01T01:00:00Z", "gamma_ray_burst", 0.9,
    ⟨"11h00m", "-5"⟩, "high"⟩

/-- The single candidate produced by the spec's example scenario 1. -/
def cand₀ : CorrelationResult :=
  ⟨(evGW, evGRB), 1, 1, 1129 / 1200, .high⟩

/-- Evaluation of the engine on the spec's example scenario 1. -/
theorem correlationData_example :
    correlationData getTime₀ parseFloat₀ 24 0.7 [evGW, evGRB] =
      [cand₀] := by
  set_option maxRecDepth 10000 in with_unfolding_all decide

/-! Inversion lemmas: what membership in the returned list tells us. -/

theorem mkCandidate_some_spec {getTime parseFloat : String → ℚ}
    {timeWindowHours : ℚ} {event1 event2 : EventData}
    {c : CorrelationResult}
    (h : mkCandidate getTime parseFloat timeWindowHours event1 event2 =
      some c) :
    event1.type ≠ event2.type ∧
    c.eventPair = (event1, event2) ∧
    c.timeDiff =
      |getTime event1.timestamp - getTime event2.timestamp| /
        (1000 * 60 * 60) ∧
    c.timeDiff ≤ timeWindowHours ∧
    c.spatialDistance =
      |parseFloat (splitH event1.coordinates.ra) -
        parseFloat (splitH event2.coordinates.ra)| ∧
    c.correlationScore =
      max 0 (1 - c.timeDiff / timeWindowHours) * 0.4 +
        max 0 (1 - c.spatialDistance / 24) * 0.3 +
        ((event1.confidence + event2.confidence) / 2) * 0.3 ∧
    c.likelihood = likelihoodOf c.correlationScore := by
  simp only [mkCandidate] at h
  split_ifs at h with h1 h2
  simp only [Option.some.injEq] at h
  subst h
  exact ⟨h1, rfl, rfl, not_lt.mp h2, rfl, rfl, rfl⟩

theorem likelihood_cases {s : ℚ} {l : Likelihood}
    (h : l = likelihoodOf s) :
    (l = Likelihood.high ↔ 0.7 < s) ∧
    (l = Likelihood.medium ↔ 0.5 < s ∧ s ≤ 0.7) ∧
    (l = Likelihood.low ↔ s ≤ 0.5) := by
  subst h
  unfold likelihoodOf
  split_ifs with h1 h2
  · exact ⟨iff_of_true rfl h1,
      iff_of_false (by decide) (fun hc => absurd hc.2 (not_le.mpr h1)),
      iff_of_false (by decide)
        (not_le.mpr (lt_trans (by norm_num) h1))⟩
  · exact ⟨iff_of_false (by decide) h1,
      iff_of_true rfl ⟨h2, not_lt.mp h1⟩,
      iff_of_false (by decide) (not_le.mpr h2)⟩
  · exact ⟨iff_of_false (by decide) h1,
      iff_of_false (by decide) (fun hc => absurd hc.1 h2),
      iff_of_true rfl (not_lt.mp h2)⟩

theorem mem_insertDesc {x c : CorrelationResult}
    {l : List CorrelationResult} (h : x ∈ insertDesc c l) :
    x = c ∨ x ∈ l := by
  induction l with
  | nil => simpa [insertDesc] using h
  | cons d ds ih =>
    unfold insertDesc at h
    split_ifs at h with h1
    · rcases List.mem_cons.mp h with h2 | h2
      · exact Or.inr (List.mem_cons.mpr (Or.inl h2))
      · rcases ih h2 with h3 | h3
        · exact Or.inl h3
        · exact Or.inr (List.mem_cons.mpr (Or.inr h3))
    · exact List.mem_cons.mp h

theorem mem_sortDesc {x : CorrelationResult} {l : List CorrelationResult}
    (h : x ∈ sortDesc l) : x ∈ l := by
  induction l with
  | nil => simp [sortDesc] at h
  | cons c cs ih =>
    have h' : x ∈ insertDesc c (sortDesc cs) := h
    rcases mem_insertDesc h' with h1 | h1
    · exact h1 ▸ List.mem_cons_self c cs
    · exact List.mem_cons.mpr (Or.inr (ih h1))

theorem mem_allPairs {p : EventData × EventData} {l : List EventData}
    (h : p ∈ allPairs l) : p.1 ∈ l ∧ p.2 ∈ l := by
  induction l with
  | nil => simp [allPairs] at h
  | cons e rest ih =>
    unfold allPairs at h
    rcases List.mem_append.mp h with h1 | h1
    · rcases List.mem_map.mp h1 with ⟨f, hf, hpf⟩
      subst hpf
      exact ⟨List.mem_cons_self e rest,
        List.mem_cons.mpr (Or.inr hf)⟩
    · have h2 := ih h1
      exact ⟨List.mem_cons.mpr (Or.inr h2.1),
        List.mem_cons.mpr (Or.inr h2.2)⟩

theorem mem_filteredEvents {e : EventData} {thr : ℚ}
    {events : List EventData} (h : e ∈ filteredEvents thr events) :
    e ∈ events ∧ thr ≤ e.confidence := by
  have h' := List.mem_filter.mp h
  exact ⟨h'.1, by simpa using h'.2⟩

theorem mem_correlationData {getTime parseFloat : String → ℚ}
    {timeWindowHours confidenceThreshold : ℚ} {events : List EventData}
    {c : CorrelationResult}
    (h : c ∈ correlationData getTime parseFloat timeWindowHours
      confidenceThreshold events) :
    ∃ event1 event2 : EventData,
      event1 ∈ events ∧ event2 ∈ events ∧
      confidenceThreshold ≤ event1.confidence ∧
      confidenceThreshold ≤ event2.confidence ∧
      mkCandidate getTime parseFloat timeWindowHours event1 event2 =
        some c := by
  have h1 : c ∈ sortDesc (candidates getTime parseFloat timeWindowHours
      confidenceThreshold events) := List.take_subset _ _ h
  have h2 := mem_sortDesc h1
  rcases List.mem_filterMap.mp h2 with ⟨p, hp, heq⟩
  have h3 := mem_allPairs hp
  have h4 := mem_filteredEvents h3.1
  have h5 := mem_filteredEvents h3.2
  exact ⟨p.1, p.2, h4.1, h5.1, h4.2, h5.2, heq⟩

/-! Claim theorems. -/

/-- C3: for every input event list whose events all have confidence in
[0,1] (and a positive time window, as all the component's selectable
windows are), every returned candidate's correlationScore lies in [0,1]:
the three sub-scores each lie in [0,1] and are combined with weights
0.4, 0.3, 0.3 summing to 1. -/
theorem score_bounds (getTime parseFloat : String → ℚ)
    (timeWindowHours confidenceThreshold : ℚ) (events : List EventData)
    (hW : 0 < timeWindowHours)
    (hconf : ∀ e ∈ events, 0 ≤ e.confidence ∧ e.confidence ≤ 1) :
    ∀ c ∈ correlationData getTime parseFloat timeWindowHours
      confidenceThreshold events,
      0 ≤ c.correlationScore ∧ c.correlationScore ≤ 1 := by
  intro c hc
  obtain ⟨e1, e2, he1, he2, _, _, hmk⟩ := mem_correlationData hc
  obtain ⟨_, _, hTD, _, hSD, hscore, _⟩ := mkCandidate_some_spec hmk
  have htd0 : 0 ≤ c.timeDiff := by rw [hTD]; positivity
  have hsd0 : 0 ≤ c.spatialDistance := by rw [hSD]; positivity
  have hts0 : 0 ≤ max 0 (1 - c.timeDiff / timeWindowHours) :=
    le_max_left 0 _
  have hts1 : max 0 (1 - c.timeDiff / timeWindowHours) ≤ 1 := by
    have h1 : 0 ≤ c.timeDiff / timeWindowHours := div_nonneg htd0 hW.le
    apply max_le (by norm_num)
    linarith
  have hss0 : 0 ≤ max 0 (1 - c.spatialDistance / 24) := le_max_left 0 _
  have hss1 : max 0 (1 - c.spatialDistance / 24) ≤ 1 := by
    have h1 : 0 ≤ c.spatialDistance / 24 :=
      div_nonneg hsd0 (by norm_num)
    apply max_le (by norm_num)
    linarith
  have h1 := hconf e1 he1
  have h2 := hconf e2 he2
  have hcs0 : 0 ≤ (e1.confidence + e2.confidence) / 2 := by
    linarith [h1.1, h2.1]
  have hcs1 : (e1.confidence + e2.confidence) / 2 ≤ 1 := by
    linarith [h1.2, h2.2]
  rw [hscore]
  constructor
  · have hp1 : (0:ℚ) ≤ max 0 (1 - c.timeDiff / timeWindowHours) * 0.4 := by
      nlinarith
    have hp2 : (0:ℚ) ≤ max 0 (1 - c.spatialDistance / 24) * 0.3 := by
      nlinarith
    have hp3 : (0:ℚ) ≤ (e1.confidence + e2.confidence) / 2 * 0.3 := by
      nlinarith
    linarith
  · have hp1 : max 0 (1 - c.timeDiff / timeWindowHours) * 0.4 ≤ 0.4 := by
      nlinarith
    have hp2 : max 0 (1 - c.spatialDistance / 24) * 0.3 ≤ 0.3 := by
      nlinarith
    have hp3 : (e1.confidence + e2.confidence) / 2 * 0.3 ≤ 0.3 := by
      nlinarith
    linarith

/-- Witness for C3 at the concrete example scenario. -/
theorem score_bounds_witness :
    0 ≤ cand₀.correlationScore ∧ cand₀.correlationScore ≤ 1 :=
  score_bounds getTime₀ parseFloat₀ 24 0.7 [evGW, evGRB] (by norm_num)
    (by set_option maxRecDepth 10000 in with_unfolding_all decide)
    cand₀
    (by set_option maxRecDepth 10000 in with_unfolding_all decide)

/-- C5: for every returned candidate, likelihood is high exactly when
the score exceeds 0.7, medium exactly when it is in (0.5, 0.7], and low
exactly when it is at most 0.5. -/
theorem likelihood_thresholds (getTime parseFloat : String → ℚ)
    (timeWindowHours confidenceThreshold : ℚ) (events : List EventData) :
    ∀ c ∈ correlationData getTime parseFloat timeWindowHours
      confidenceThreshold events,
      (c.likelihood = Likelihood.high ↔ 0.7 < c.correlationScore) ∧
      (c.likelihood = Likelihood.medium ↔
        0.5 < c.correlationScore ∧ c.correlationScore ≤ 0.7) ∧
      (c.likelihood = Likelihood.low ↔ c.correlationScore ≤ 0.5) := by
  intro c hc
  obtain ⟨e1, e2, _, _, _, _, hmk⟩ := mem_correlationData hc
  exact likelihood_cases (mkCandidate_some_spec hmk).2.2.2.2.2.2

/-- Witness for C5 at the concrete example scenario. -/
theorem likelihood_thresholds_witness :
    (cand₀.likelihood = Likelihood.high ↔ 0.7 < cand₀.correlationScore) ∧
    (cand₀.likelihood = Likelihood.medium ↔
      0.5 < cand₀.correlationScore ∧ cand₀.correlationScore ≤ 0.7) ∧
    (cand₀.likelihood = Likelihood.low ↔ cand₀.correlationScore ≤ 0.5) :=
  likelihood_thresholds getTime₀ parseFloat₀ 24 0.7 [evGW, evGRB] cand₀
    (by set_option maxRecDepth 10000 in with_unfolding_all decide)

/-- First event of the spec's example scenario 2 (same type). -/
def evSN1 : EventData :=
  ⟨"SN-1", "2024-01-01T00:00:00Z", "supernova", 0.9,
    ⟨"10h00m", "+20"⟩, "high"⟩

/-- Second event of the spec's example scenario 2: same type as `evSN1`,
same instant, same right ascension. -/
def evSN2 : EventData :=
  ⟨"SN-2", "2024-01-01T00:00:00Z", "supernova", 0.9,
    ⟨"10h00m", "+21"⟩, "high"⟩

/-- C6: no returned candidate ever pairs two events of the same type,
and an input of exactly two same-type events yields no candidates, no
matter how close they are in time and position. -/
theorem no_same_type_pairing (getTime parseFloat : String → ℚ)
    (timeWindowHours confidenceThreshold : ℚ) (events : List EventData)
    (e1 e2 : EventData) (hsame : e1.type = e2.type) :
    (∀ c ∈ correlationData getTime parseFloat timeWindowHours
      confidenceThreshold events,
      c.eventPair.1.type ≠ c.eventPair.2.type) ∧
    correlationData getTime parseFloat timeWindowHours
      confidenceThreshold [e1, e2] = [] := by
  constructor
  · intro c hc
    obtain ⟨f1, f2, _, _, _, _, hmk⟩ := mem_correlationData hc
    obtain ⟨hty, hpair, _⟩ := mkCandidate_some_spec hmk
    rw [hpair]
    exact hty
  · unfold correlationData candidates filteredEvents
    by_cases h1 : e1.confidence ≥ confidenceThreshold <;>
      by_cases h2 : e2.confidence ≥ confidenceThreshold <;>
        simp [h1, h2, allPairs, mkCandidate, hsame, sortDesc, insertDesc]

/-- Witness for C6: the cross-type example returns only cross-type
pairs, and the same-type example scenario 2 returns no candidates. -/
theorem no_same_type_pairing_witness :
    (∀ c ∈ correlationData getTime₀ parseFloat₀ 24 0.7 [evGW, evGRB],
      c.eventPair.1.type ≠ c.eventPair.2.type) ∧
    correlationData getTime₀ parseFloat₀ 24 0.7 [evSN1, evSN2] = [] :=
  no_same_type_pairing getTime₀ parseFloat₀ 24 0.7 [evGW, evGRB]
    evSN1 evSN2 rfl

/-- C7: every returned candidate's spatial separation is the plain
absolute difference of the two parsed right-ascension prefixes (no
declination correction, no wraparound), and its score uses the spatial
sub-score max(0, 1 - spatialSeparation / 24). -/
theorem spatial_separation_ra_only (getTime parseFloat : String → ℚ)
    (timeWindowHours confidenceThreshold : ℚ) (events : List EventData) :
    ∀ c ∈ correlationData getTime parseFloat timeWindowHours
      confidenceThreshold events,
      c.spatialDistance =
        |parseFloat (splitH c.eventPair.1.coordinates.ra) -
          parseFloat (splitH c.eventPair.2.coordinates.ra)| ∧
      c.correlationScore =
        max 0 (1 - c.timeDiff / timeWindowHours) * 0.4 +
          max 0 (1 - c.spatialDistance / 24) * 0.3 +
          ((c.eventPair.1.confidence + c.eventPair.2.confidence) / 2) *
            0.3 := by
  intro c hc
  obtain ⟨e1, e2, _, _, _, _, hmk⟩ := mem_correlationData hc
  obtain ⟨_, hpair, _, _, hSD, hscore, _⟩ := mkCandidate_some_spec hmk
  rw [hpair]
  exact ⟨hSD, hscore⟩

/-- Witness for C7 at the concrete example scenario. -/
theorem spatial_separation_ra_only_witness :
    cand₀.spatialDistance =
      |parseFloat₀ (splitH cand₀.eventPair.1.coordinates.ra) -
        parseFloat₀ (splitH cand₀.eventPair.2.coordinates.ra)| ∧
    cand₀.correlationScore =
      max 0 (1 - cand₀.timeDiff / 24) * 0.4 +
        max 0 (1 - cand₀.spatialDistance / 24) * 0.3 +
        ((cand₀.eventPair.1.confidence + cand₀.eventPair.2.confidence) /
          2) * 0.3 :=
  spatial_separation_ra_only getTime₀ parseFloat₀ 24 0.7 [evGW, evGRB]
    cand₀
    (by set_option maxRecDepth 10000 in with_unfolding_all decide)

/-- C8: with a positive time window, every returned candidate's
timeSeparation is at most the window, and is the absolute timestamp
difference converted from milliseconds to hours. -/
theorem time_window_respected (getTime parseFloat : String → ℚ)
    (timeWindowHours confidenceThreshold : ℚ) (events : List EventData)
    (_hW : 0 < timeWindowHours) :
    ∀ c ∈ correlationData getTime parseFloat timeWindowHours
      confidenceThreshold events,
      c.timeDiff ≤ timeWindowHours ∧
      c.timeDiff =
        |getTime c.eventPair.1.timestamp -
          getTime c.eventPair.2.timestamp| / (1000 * 60 * 60) := by
  intro c hc
  obtain ⟨e1, e2, _, _, _, _, hmk⟩ := mem_correlationData hc
  obtain ⟨_, hpair, hTD, hTDle, _, _, _⟩ := mkCandidate_some_spec hmk
  rw [hpair]
  exact ⟨hTDle, hTD⟩

/-- Witness for C8 at the concrete example scenario. -/
theorem time_window_respected_witness :
    cand₀.timeDiff ≤ 24 ∧
    cand₀.timeDiff =
      |getTime₀ cand₀.eventPair.1.timestamp -
        getTime₀ cand₀.eventPair.2.timestamp| / (1000 * 60 * 60) :=
  time_window_respected getTime₀ parseFloat₀ 24 0.7 [evGW, evGRB]
    (by norm_num) cand₀
    (by set_option maxRecDepth 10000 in with_unfolding_all decide)

/-! Sortedness and stability (C4).  Candidates are tagged with their
position in the generation order (`List.enum`), the tagged list is
sorted by the same rule as `sortDesc`, and the tagged result is pairwise
ordered: scores descend, and equal scores keep ascending generation
indices. -/

/-- Indexed version of `insertDesc`; the tag never influences the
comparison, exactly as in the JS comparator. -/
def insertDescIdx (c : ℕ × CorrelationResult) :
    List (ℕ × CorrelationResult) → List (ℕ × CorrelationResult)
  | [] => [c]
  | d :: ds =>
    if d.2.correlationScore > c.2.correlationScore then
      d :: insertDescIdx c ds
    else c :: d :: ds

/-- Indexed version of `sortDesc`. -/
def sortDescIdx :
    List (ℕ × CorrelationResult) → List (ℕ × CorrelationResult)
  | [] => []
  | c :: cs => insertDescIdx c (sortDescIdx cs)

/-- Ordering invariant of the returned list: scores weakly descend, and
candidates with equal scores appear in generation order. -/
def RankedBefore (a b : ℕ × CorrelationResult) : Prop :=
  b.2.correlationScore ≤ a.2.correlationScore ∧
    (a.2.correlationScore = b.2.correlationScore → a.1 < b.1)

theorem map_snd_insertDescIdx (c : ℕ × CorrelationResult)
    (l : List (ℕ × CorrelationResult)) :
    (insertDescIdx c l).map Prod.snd = insertDesc c.2 (l.map Prod.snd) := by
  induction l with
  | nil => rfl
  | cons d ds ih =>
    unfold insertDescIdx insertDesc
    by_cases h : d.2.correlationScore > c.2.correlationScore <;>
      simp [h, ih]

theorem map_snd_sortDescIdx (l : List (ℕ × CorrelationResult)) :
    (sortDescIdx l).map Prod.snd = sortDesc (l.map Prod.snd) := by
  induction l with
  | nil => rfl
  | cons c cs ih =>
    unfold sortDescIdx sortDesc
    rw [List.map_cons, map_snd_insertDescIdx, ih]

theorem mem_insertDescIdx {x c : ℕ × CorrelationResult}
    {l : List (ℕ × CorrelationResult)} (h : x ∈ insertDescIdx c l) :
    x = c ∨ x ∈ l := by
  induction l with
  | nil => simpa [insertDescIdx] using h
  | cons d ds ih =>
    unfold insertDescIdx at h
    split_ifs at h with h1
    · rcases List.mem_cons.mp h with h2 | h2
      · exact Or.inr (List.mem_cons.mpr (Or.inl h2))
      · rcases ih h2 with h3 | h3
        · exact Or.inl h3
        · exact Or.inr (List.mem_cons.mpr (Or.inr h3))
    · exact List.mem_cons.mp h

theorem mem_sortDescIdx {x : ℕ × CorrelationResult}
    {l : List (ℕ × CorrelationResult)} (h : x ∈ sortDescIdx l) :
    x ∈ l := by
  induction l with
  | nil => simp [sortDescIdx] at h
  | cons c cs ih =>
    have h' : x ∈ insertDescIdx c (sortDescIdx cs) := h
    rcases mem_insertDescIdx h' with h1 | h1
    · exact h1 ▸ List.mem_cons_self c cs
    · exact List.mem_cons.mpr (Or.inr (ih h1))

theorem pairwise_insertDescIdx {c : ℕ × CorrelationResult}
    {l : List (ℕ × CorrelationResult)}
    (hl : List.Pairwise RankedBefore l) (hidx : ∀ d ∈ l, c.1 < d.1) :
    List.Pairwise RankedBefore (insertDescIdx c l) := by
  induction l with
  | nil => simp [insertDescIdx]
  | cons d ds ih =>
    obtain ⟨hd, hds⟩ := List.pairwise_cons.mp hl
    unfold insertDescIdx
    split_ifs with h
    · refine List.pairwise_cons.mpr ⟨?_, ?_⟩
      · intro x hx
        rcases mem_insertDescIdx hx with rfl | hx'
        · exact ⟨le_of_lt h, fun he => absurd he (ne_of_gt h)⟩
        · exact hd x hx'
      · exact ih hds fun x hx => hidx x (List.mem_cons.mpr (Or.inr hx))
    · refine List.pairwise_cons.mpr ⟨?_, hl⟩
      intro x hx
      rcases List.mem_cons.mp hx with rfl | hx'
      · exact ⟨not_lt.mp h, fun _ => hidx x (List.mem_cons_self _ _)⟩
      · exact ⟨le_trans (hd x hx').1 (not_lt.mp h),
          fun _ => hidx x (List.mem_cons.mpr (Or.inr hx'))⟩

theorem pairwise_sortDescIdx {l : List (ℕ × CorrelationResult)}
    (h : List.Pairwise (fun a b => a.1 < b.1) l) :
    List.Pairwise RankedBefore (sortDescIdx l) := by
  induction l with
  | nil => simp [sortDescIdx]
  | cons c cs ih =>
    obtain ⟨hc, hcs⟩ := List.pairwise_cons.mp h
    exact pairwise_insertDescIdx (ih hcs)
      fun d hd => hc d (mem_sortDescIdx hd)

theorem fst_le_of_mem_enumFrom {x : ℕ × CorrelationResult} {n : ℕ}
    {l : List CorrelationResult} (h : x ∈ List.enumFrom n l) :
    n ≤ x.1 := by
  induction l generalizing n with
  | nil => simp [List.enumFrom] at h
  | cons c cs ih =>
    rcases List.mem_cons.mp h with rfl | h'
    · exact le_refl _
    · exact le_trans (Nat.le_succ n) (ih h')

theorem pairwise_fst_lt_enumFrom (n : ℕ) (l : List CorrelationResult) :
    List.Pairwise (fun a b => a.1 < b.1) (List.enumFrom n l) := by
  induction l generalizing n with
  | nil => simp [List.enumFrom]
  | cons c cs ih =>
    refine List.pairwise_cons.mpr ⟨?_, ih (n + 1)⟩
    intro x hx
    exact lt_of_lt_of_le (Nat.lt_succ_self n) (fst_le_of_mem_enumFrom hx)

/-- C4: the returned list is sorted by correlationScore in weakly
descending order, it equals the stable sort of the candidates tagged
with their generation index (pairs enumerated with lower i first, then
lower j), and in that tagged sort equal scores keep generation order. -/
theorem ranking_sorted_stable (getTime parseFloat : String → ℚ)
    (timeWindowHours confidenceThreshold : ℚ)
    (events : List EventData) :
    List.Pairwise (fun a b => b.correlationScore ≤ a.correlationScore)
      (correlationData getTime parseFloat timeWindowHours
        confidenceThreshold events) ∧
    correlationData getTime parseFloat timeWindowHours
        confidenceThreshold events =
      ((sortDescIdx ((candidates getTime parseFloat timeWindowHours
        confidenceThreshold events).enum)).map Prod.snd).take 10 ∧
    List.Pairwise RankedBefore
      (sortDescIdx ((candidates getTime parseFloat timeWindowHours
        confidenceThreshold events).enum)) := by
  have hpe : List.Pairwise (fun a b => a.1 < b.1)
      ((candidates getTime parseFloat timeWindowHours
        confidenceThreshold events).enum) :=
    pairwise_fst_lt_enumFrom 0 _
  have h3 := pairwise_sortDescIdx hpe
  have h2 : correlationData getTime parseFloat timeWindowHours
      confidenceThreshold events =
      ((sortDescIdx ((candidates getTime parseFloat timeWindowHours
        confidenceThreshold events).enum)).map Prod.snd).take 10 := by
    unfold correlationData
    rw [map_snd_sortDescIdx]
    rw [show ((candidates getTime parseFloat timeWindowHours
      confidenceThreshold events).enum).map Prod.snd =
      candidates getTime parseFloat timeWindowHours confidenceThreshold
        events from List.enumFrom_map_snd 0 _]
  refine ⟨?_, h2, h3⟩
  rw [h2]
  have h4 : List.Pairwise
      (fun a b : CorrelationResult =>
        b.correlationScore ≤ a.correlationScore)
      ((sortDescIdx ((candidates getTime parseFloat timeWindowHours
        confidenceThreshold events).enum)).map Prod.snd) :=
    h3.map Prod.snd fun a b hab => hab.1
  exact h4.sublist (List.take_sublist _ _)

/-- C9: the computation is a pure function of its inputs — equal inputs
give identical output lists — and each returned candidate refers to the
unmodified input events themselves. -/
theorem deterministic_pure (getTime parseFloat : String → ℚ)
    (timeWindowHours confidenceThreshold : ℚ)
    (events events' : List EventData) (h : events = events') :
    correlationData getTime parseFloat timeWindowHours
        confidenceThreshold events =
      correlationData getTime parseFloat timeWindowHours
        confidenceThreshold events' ∧
    ∀ c ∈ correlationData getTime parseFloat timeWindowHours
      confidenceThreshold events,
      c.eventPair.1 ∈ events ∧ c.eventPair.2 ∈ events := by
  subst h
  refine ⟨rfl, ?_⟩
  intro c hc
  obtain ⟨e1, e2, he1, he2, _, _, hmk⟩ := mem_correlationData hc
  have hpair := (mkCandidate_some_spec hmk).2.1
  rw [hpair]
  exact ⟨he1, he2⟩

/-- Witness for C9 at the concrete example scenario. -/
theorem deterministic_pure_witness :
    correlationData getTime₀ parseFloat₀ 24 0.7 [evGW, evGRB] =
      correlationData getTime₀ parseFloat₀ 24 0.7 [evGW, evGRB] ∧
    ∀ c ∈ correlationData getTime₀ parseFloat₀ 24 0.7 [evGW, evGRB],
      c.eventPair.1 ∈ [evGW, evGRB] ∧ c.eventPair.2 ∈ [evGW, evGRB] :=
  deterministic_pure getTime₀ parseFloat₀ 24 0.7 [evGW, evGRB]
    [evGW, evGRB] rfl

/-! Noninterference (C10): declination and the part of the RA string
after its first h are never read by the scoring computation. -/

/-- Agreement of two events on everything the scoring computation can
read: id, timestamp, type, confidence, significance, and the prefix of
the RA string before its first h.  Declination and the RA suffix are
unconstrained. -/
def AgreeVisible (e e' : EventData) : Prop :=
  e.id = e'.id ∧ e.timestamp = e'.timestamp ∧ e.type = e'.type ∧
  e.confidence = e'.confidence ∧
  splitH e.coordinates.ra = splitH e'.coordinates.ra ∧
  e.significance = e'.significance

instance decAgreeVisible (e e' : EventData) :
    Decidable (AgreeVisible e e') := by
  unfold AgreeVisible
  infer_instance

/-- Agreement of two candidates on the four numeric outputs the claim
compares. -/
def AgreeScores (c c' : CorrelationResult) : Prop :=
  c.timeDiff = c'.timeDiff ∧ c.spatialDistance = c'.spatialDistance ∧
  c.correlationScore = c'.correlationScore ∧
  c.likelihood = c'.likelihood

/-- The four computed outputs of a candidate, without the event pair. -/
def scoreView (c : CorrelationResult) : ℚ × ℚ × ℚ × Likelihood :=
  (c.timeDiff, c.spatialDistance, c.correlationScore, c.likelihood)

theorem filteredEvents_cons (thr : ℚ) (e : EventData)
    (l : List EventData) :
    filteredEvents thr (e :: l) =
      if e.confidence ≥ thr then e :: filteredEvents thr l
      else filteredEvents thr l := by
  unfold filteredEvents
  rw [List.filter_cons]
  by_cases h : e.confidence ≥ thr <;> simp [h]

theorem forall₂_filteredEvents {thr : ℚ} {l l' : List EventData}
    (h : List.Forall₂ AgreeVisible l l') :
    List.Forall₂ AgreeVisible (filteredEvents thr l)
      (filteredEvents thr l') := by
  induction h with
  | nil => exact List.Forall₂.nil
  | @cons a b la lb hab hrest ih =>
    rw [filteredEvents_cons, filteredEvents_cons, hab.2.2.2.1]
    by_cases hc : b.confidence ≥ thr
    · rw [if_pos hc, if_pos hc]
      exact List.Forall₂.cons hab ih
    · rw [if_neg hc, if_neg hc]
      exact ih

theorem forall₂_pairWith {a b : EventData} (hab : AgreeVisible a b)
    {l l' : List EventData} (h : List.Forall₂ AgreeVisible l l') :
    List.Forall₂
      (fun p q => AgreeVisible p.1 q.1 ∧ AgreeVisible p.2 q.2)
      (l.map (fun f => (a, f))) (l'.map (fun f => (b, f))) := by
  induction h with
  | nil => exact List.Forall₂.nil
  | cons h1 _ ih => exact List.Forall₂.cons ⟨hab, h1⟩ ih

theorem forall₂_allPairs {l l' : List EventData}
    (h : List.Forall₂ AgreeVisible l l') :
    List.Forall₂
      (fun p q => AgreeVisible p.1 q.1 ∧ AgreeVisible p.2 q.2)
      (allPairs l) (allPairs l') := by
  induction h with
  | nil => exact List.Forall₂.nil
  | @cons a b la lb hab hrest ih =>
    unfold allPairs
    exact List.rel_append (forall₂_pairWith hab hrest) ih

theorem mkCandidate_agree {getTime parseFloat : String → ℚ}
    {timeWindowHours : ℚ} {e1 e1' e2 e2' : EventData}
    (h1 : AgreeVisible e1 e1') (h2 : AgreeVisible e2 e2') :
    (mkCandidate getTime parseFloat timeWindowHours e1 e2 = none ∧
      mkCandidate getTime parseFloat timeWindowHours e1' e2' = none) ∨
    ∃ c c',
      mkCandidate getTime parseFloat timeWindowHours e1 e2 = some c ∧
      mkCandidate getTime parseFloat timeWindowHours e1' e2' = some c' ∧
      AgreeScores c c' := by
  obtain ⟨_, hts1, hty1, hcf1, hra1, _⟩ := h1
  obtain ⟨_, hts2, hty2, hcf2, hra2, _⟩ := h2
  simp only [mkCandidate]
  rw [hts1, hts2, hty1, hty2, hra1, hra2, hcf1, hcf2]
  split_ifs
  · exact Or.inl ⟨rfl, rfl⟩
  · exact Or.inl ⟨rfl, rfl⟩
  · exact Or.inr ⟨_, _, rfl, rfl, rfl, rfl, rfl, rfl⟩

theorem forall₂_candidates {getTime parseFloat : String → ℚ}
    {timeWindowHours : ℚ} {l l' : List (EventData × EventData)}
    (h : List.Forall₂
      (fun p q => AgreeVisible p.1 q.1 ∧ AgreeVisible p.2 q.2) l l') :
    List.Forall₂ AgreeScores
      (l.filterMap
        (fun p => mkCandidate getTime parseFloat timeWindowHours p.1 p.2))
      (l'.filterMap
        (fun p => mkCandidate getTime parseFloat timeWindowHours p.1
          p.2)) := by
  induction h with
  | nil => exact List.Forall₂.nil
  | @cons a b la lb hab hrest ih =>
    rw [List.filterMap_cons, List.filterMap_cons]
    rcases mkCandidate_agree hab.1 hab.2 with ⟨hn1, hn2⟩ |
      ⟨c, c', hs1, hs2, hcc⟩
    · rw [hn1, hn2]
      exact ih
    · rw [hs1, hs2]
      exact List.Forall₂.cons hcc ih

theorem forall₂_insertDesc {c c' : CorrelationResult}
    (hcc : AgreeScores c c') {l l' : List CorrelationResult}
    (h : List.Forall₂ AgreeScores l l') :
    List.Forall₂ AgreeScores (insertDesc c l) (insertDesc c' l') := by
  induction h with
  | nil => exact List.Forall₂.cons hcc List.Forall₂.nil
  | @cons d d' ld ld' hdd hrest ih =>
    unfold insertDesc
    rw [hdd.2.2.1, hcc.2.2.1]
    split_ifs
    · exact List.Forall₂.cons hdd ih
    · exact List.Forall₂.cons hcc (List.Forall₂.cons hdd hrest)

theorem forall₂_sortDesc {l l' : List CorrelationResult}
    (h : List.Forall₂ AgreeScores l l') :
    List.Forall₂ AgreeScores (sortDesc l) (sortDesc l') := by
  induction h with
  | nil => exact List.Forall₂.nil
  | cons h1 _ ih => exact forall₂_insertDesc h1 ih

theorem map_scoreView_eq {l l' : List CorrelationResult}
    (h : List.Forall₂ AgreeScores l l') :
    l.map scoreView = l'.map scoreView := by
  induction h with
  | nil => rfl
  | cons h1 _ ih =>
    rw [List.map_cons, List.map_cons, ih]
    obtain ⟨a1, a2, a3, a4⟩ := h1
    simp [scoreView, a1, a2, a3, a4]

/-- C10: for two input lists that agree on every field except
declination and the part of each RA string after its first h, the
returned candidates' timeDiff, spatialDistance, correlationScore and
likelihood are identical: only the parsed RA prefix reaches the scoring
computation, and declination is never read. -/
theorem dec_and_ra_suffix_never_read (getTime parseFloat : String → ℚ)
    (timeWindowHours confidenceThreshold : ℚ)
    (events events' : List EventData)
    (h : List.Forall₂ AgreeVisible events events') :
    (correlationData getTime parseFloat timeWindowHours
      confidenceThreshold events).map scoreView =
    (correlationData getTime parseFloat timeWindowHours
      confidenceThreshold events').map scoreView := by
  apply map_scoreView_eq
  unfold correlationData candidates
  exact List.forall₂_take 10
    (forall₂_sortDesc
      (forall₂_candidates (forall₂_allPairs (forall₂_filteredEvents h))))

/-- Variant of the first example event with a different declination and
a different RA suffix after the first h. -/
def evGW' : EventData :=
  ⟨"GW-1", "2024-01-01T00:00:00Z", "gravitational_wave", 0.9,
    ⟨"10h59m", "-77"⟩, "high"⟩

/-- Variant of the second example event with a different declination. -/
def evGRB' : EventData :=
  ⟨"GRB-1", "2024-01-01T01:00:00Z", "gamma_ray_burst", 0.9,
    ⟨"11h00m", "+33"⟩, "high"⟩

/-- Witness for C10 at the concrete example scenario. -/
theorem dec_and_ra_suffix_never_read_witness :
    (correlationData getTime₀ parseFloat₀ 24 0.7
      [evGW, evGRB]).map scoreView =
    (correlationData getTime₀ parseFloat₀ 24 0.7
      [evGW', evGRB']).map scoreView :=
  dec_and_ra_suffix_never_read getTime₀ parseFloat₀ 24 0.7
    [evGW, evGRB] [evGW', evGRB']
    (List.Forall₂.cons
      (by with_unfolding_all decide)
      (List.Forall₂.cons (by with_unfolding_all decide)
        List.Forall₂.nil))

/-! Validation (C1) and the worked example scenario (C2). -/

/-- Event with out-of-range confidence 1.5, the spec's scenario 6. -/
def evBad : EventData :=
  ⟨"GRB-2", "2024-01-01T01:00:00Z", "gamma_ray_burst", 1.5,
    ⟨"11h00m", "-5"⟩, "high"⟩

/-- Counterexample to C1 as stated: on an input containing a malformed
event (confidence 1.5) the computation does not stop — it returns a
nonempty candidate list, so candidates were computed over a
partially-invalid input set and no error of any kind was raised (the
computation has no error outcome at all). -/
theorem no_validation_counterexample :
    evBad.confidence = 1.5 ∧
    correlationData getTime₀ parseFloat₀ 24 0.7 [evGW, evBad] ≠ [] := by
  constructor
  · with_unfolding_all decide
  · set_option maxRecDepth 10000 in with_unfolding_all decide

/-- C1 amended: the component performs no validation at all.  An event
with confidence 1.5 passes the confidence-floor filter, is paired and
scored normally, and its out-of-range confidence flows into the
composite score, which here even exceeds 1. -/
theorem no_validation_amended :
    correlationData getTime₀ parseFloat₀ 24 0.7 [evGW, evBad] =
      [⟨(evGW, evBad), 1, 1, 1237 / 1200, Likelihood.high⟩] ∧
    (1 : ℚ) < 1237 / 1200 := by
  constructor
  · set_option maxRecDepth 10000 in with_unfolding_all decide
  · norm_num

/-- Counterexample to C2 as stated: on the claim's exact scenario the
single returned candidate's correlationScore is 1129/1200 ≈ 0.9408, not
approximately 0.930 — it misses the claimed value by more than 0.01. -/
theorem example_scenario_score_not_930 :
    correlationData getTime₀ parseFloat₀ 24 0.7 [evGW, evGRB] =
      [cand₀] ∧
    0.01 < |cand₀.correlationScore - 0.930| := by
  constructor
  · exact correlationData_example
  · with_unfolding_all decide

/-- C2 amended: the scenario (cross-type events one hour apart, RA
prefixes differing by 1, confidences 0.9, default configuration) yields
exactly one candidate with likelihood high, timeDiff 1 hour,
spatialDistance 1 degree and correlationScore 1129/1200 ≈ 0.941
(timeScore = spatialScore = 23/24 ≈ 0.958, confidenceScore = 0.9). -/
theorem example_scenario_exact :
    correlationData getTime₀ parseFloat₀ 24 0.7 [evGW, evGRB] =
      [⟨(evGW, evGRB), 1, 1, 1129 / 1200, Likelihood.high⟩] ∧
    (1129 / 1200 : ℚ) =
      max 0 (1 - 1 / 24) * 0.4 + max 0 (1 - 1 / 24) * 0.3 +
        ((0.9 + 0.9) / 2) * 0.3 := by
  constructor
  · exact correlationData_example
  · set_option maxRecDepth 10000 in with_unfolding_all decide

end SuryaKiran
